import Mathlib

/-!
# PHTaxCalculator: monthly contributions and withholding tax

A shallow embedding of `App.go`.  The program computes, from a gross monthly
salary, the SSS, PhilHealth and Pag-IBIG contributions, the withholding tax
and the net pay.

Money values are `decimal.Decimal` values of `github.com/shopspring/decimal`:
an arbitrary-precision integer coefficient with a power-of-ten exponent.  A
decimal is represented here by the rational number it denotes.  Every
operation the program calls (`Add`, `Sub`, `Mul`, `Div`, `Floor`, `Min`,
`Round`, the comparisons) is a function of the denoted values, so nothing is
lost.  `Add`, `Sub`, `Mul`, `Min` and the comparisons are exact and are the
operations of `ℚ`.  `Div`, `Floor` and `Round` are embedded below after the
library's algorithms.
-/

namespace Decimal

/-- Truncation toward zero, the rounding of `big.Int.Quo` and
`big.Int.QuoRem`. -/
def trunc (x : ℚ) : ℤ := if 0 ≤ x then ⌊x⌋ else -⌊-x⌋

/-- The sign of a decimal's coefficient: `-1`, `0` or `1`. -/
def Sign (d : ℚ) : ℤ := if d < 0 then -1 else if d = 0 then 0 else 1

/-- The library's package variable `DivisionPrecision`, which the program
leaves at its default 16: the number of fractional digits of a quotient that
does not divide exactly. -/
def DivisionPrecision : ℕ := 16

/-- `d.QuoRem(d2, precision)`: the quotient truncated toward zero to
`precision` fractional digits, and the remainder `d - d2 * q`.
The library panics when `d2` is zero; the program divides by the literals
`500` and `2` only. -/
def QuoRem (d d2 : ℚ) (precision : ℕ) : ℚ × ℚ :=
  let q : ℚ := (trunc (d / d2 * 10 ^ precision) : ℚ) / 10 ^ precision
  (q, d - d2 * q)

/-- `d.DivRound(d2, precision)`: the truncated quotient is kept when twice
the scaled remainder is below `|d2|`, and moved one unit of the last place
away from zero otherwise. -/
def DivRound (d d2 : ℚ) (precision : ℕ) : ℚ :=
  let qr := QuoRem d d2 precision
  if 2 * |qr.2| * 10 ^ precision < |d2| then qr.1
  else if Sign d * Sign d2 < 0 then qr.1 - 1 / 10 ^ precision
  else qr.1 + 1 / 10 ^ precision

/-- `d.Div(d2)` is `d.DivRound(d2, DivisionPrecision)`.  The library documents
it so: "Div returns d / d2. If it doesn't divide exactly, the result will have
DivisionPrecision digits after the decimal point."  The quotient is therefore
exact only when it has at most 16 fractional digits. -/
def Div (d d2 : ℚ) : ℚ := DivRound d d2 DivisionPrecision

/-- `d.Floor()`: the coefficient divided (Euclidean division of `big.Int`) by
the power of ten of its exponent, i.e. the greatest integer below `d`. -/
def Floor (d : ℚ) : ℚ := ((⌊d⌋ : ℤ) : ℚ)

/-- `d.Round(places)`: the value is truncated to `places + 1` digits, five
units of that digit are added in the direction of the sign, and the last
digit is dropped (`DivMod` by ten, corrected to round toward zero for a
negative quotient).  The library returns `d` itself when its exponent is
already `-places`; the value is the same. -/
def Round (d : ℚ) (places : ℕ) : ℚ :=
  let t : ℤ := trunc (d * 10 ^ (places + 1))
  let v : ℤ := if t < 0 then t - 5 else t + 5
  let q : ℤ := v / 10
  let m : ℤ := v % 10
  let q1 : ℤ := if q < 0 ∧ m ≠ 0 then q + 1 else q
  (q1 : ℚ) / 10 ^ places

/-- Rounding to the nearest integer, ties away from zero: the closed form of
`DivRound` and `Round`, used in the proofs only. -/
def roundHalfAway (x : ℚ) : ℤ := if 0 ≤ x then ⌊x + 1 / 2⌋ else -⌊-x + 1 / 2⌋

end Decimal

/-- Monthly salary credit: `(salary + 250) // 500 * 500`, at most `25000`. -/
def getSSSMSC (monthlySalary : ℚ) : ℚ :=
  let result := monthlySalary + 250
  let result := Decimal.Floor (Decimal.Div result 500)
  let result := result * 500
  min 25000 result

/-- SSS contribution: `135` when the credit is below `3250`, else 4.5% of the
credit. -/
def getSSSContri (monthlySalary : ℚ) : ℚ :=
  let msc := getSSSMSC monthlySalary
  if msc < 3250 then 135 else msc * (45 / 1000)

/-- PhilHealth contribution: the employee's half of `400`, of `3200`, or of
4% of the salary. -/
def getPhilHealthContri (monthlySalary : ℚ) : ℚ :=
  let result : ℚ :=
    if monthlySalary ≤ 10000 then 400
    else if monthlySalary ≥ 80000 then 3200
    else monthlySalary * (4 / 100)
  Decimal.Div result 2

/-- The formula of the specification for the health-insurance contribution:
the salary clamped to `[10000, 80000]`, times 0.04, halved, in exact
arithmetic.  It follows the specification, not the source, and is compared
with `getPhilHealthContri`. -/
def healthInsuranceContribution_spec (salary : ℚ) : ℚ :=
  min (max salary 10000) 80000 * (4 / 100) / 2

/-- Pag-IBIG contribution: 1% or 2% of the salary capped at `5000`. -/
def getPagIBIGContri (monthlySalary : ℚ) : ℚ :=
  let monthlySalary := min monthlySalary 5000
  let contributionRate : ℚ := if monthlySalary ≤ 1500 then 1 / 100 else 2 / 100
  monthlySalary * contributionRate

/-- One row of `monthlyTaxTable`.  `upperBound` is the result of
`decimal.NewFromString` on the first column: `none` for the string `inf`,
which the library cannot convert. -/
structure TaxRow where
  upperBound : Option ℚ
  fixedTax : ℚ
  rate : ℚ
  compensationLevel : ℚ
deriving DecidableEq

/-- The table of `getWithholdingTax`, in the order of the source. -/
def monthlyTaxTable : List TaxRow :=
  [ ⟨some 20833, 0, 0, 0⟩,
    ⟨some 33332, 0, 2 / 10, 20833⟩,
    ⟨some 66666, 2500, 25 / 100, 33333⟩,
    ⟨some 166666, 1083333 / 100, 3 / 10, 66667⟩,
    ⟨some 666666, 4083333 / 100, 32 / 100, 166667⟩,
    ⟨none, 20083333 / 100, 35 / 100, 666667⟩ ]

/-- The `for ... range` loop of `getWithholdingTax`: the first row whose
upper bound failed to parse or is at least the taxable income; `none` when
the loop ends without reaching `break`. -/
def scanTaxTable : List TaxRow → ℚ → Option TaxRow
  | [], _ => none
  | vals :: rest, taxableIncome =>
    match vals.upperBound with
    | none => some vals
    | some upperBound =>
      if taxableIncome ≤ upperBound then some vals else scanTaxTable rest taxableIncome

/-- The triple `(fixedTax, rate, compensationLevel)`; the three variables
keep their zero value when no row is selected. -/
def getWithholdingTax (taxableIncome : ℚ) : ℚ × ℚ × ℚ :=
  match scanTaxTable monthlyTaxTable taxableIncome with
  | some vals => (vals.fixedTax, vals.rate, vals.compensationLevel)
  | none => (0, 0, 0)

/-- The values `compute` derives and prints. -/
structure ComputeResult where
  SSSContri : ℚ
  philHealthContri : ℚ
  pagIBIGContri : ℚ
  totalContri : ℚ
  taxableIncome : ℚ
  incomeTax : ℚ
  netPayAfterTax : ℚ
  totalDeductions : ℚ
  netSalary : ℚ
deriving DecidableEq

/-- The body of `compute`, returning the computed values instead of
printing them. -/
def compute (monthlySalary : ℚ) : ComputeResult :=
  let SSSContri := getSSSContri monthlySalary
  let philHealthContri := getPhilHealthContri monthlySalary
  let pagIBIGContri := getPagIBIGContri monthlySalary
  let totalContri := Decimal.Round (SSSContri + philHealthContri + pagIBIGContri) 2
  let taxableIncome := monthlySalary - totalContri
  let wt := getWithholdingTax taxableIncome
  let fixedTax := wt.1
  let rate := wt.2.1
  let compensationLevel := wt.2.2
  let rateOverCL := (taxableIncome - compensationLevel) * rate
  let incomeTax := Decimal.Round (fixedTax + rateOverCL) 2
  let netPayAfterTax := Decimal.Round (monthlySalary - incomeTax) 2
  let totalDeductions := Decimal.Round (totalContri + incomeTax) 2
  let netSalary := Decimal.Round (monthlySalary - totalDeductions) 2
  { SSSContri := SSSContri
    philHealthContri := philHealthContri
    pagIBIGContri := pagIBIGContri
    totalContri := totalContri
    taxableIncome := taxableIncome
    incomeTax := incomeTax
    netPayAfterTax := netPayAfterTax
    totalDeductions := totalDeductions
    netSalary := netSalary }

/-- The value `fixedTax.Add(rateOverCL)` that `compute` rounds into
`incomeTax`, as a function of the taxable income: the fixed tax of the
selected row plus the rate applied to the income over its compensation
level. -/
def unroundedIncomeTax (taxableIncome : ℚ) : ℚ :=
  let wt := getWithholdingTax taxableIncome
  let fixedTax := wt.1
  let rate := wt.2.1
  let compensationLevel := wt.2.2
  let rateOverCL := (taxableIncome - compensationLevel) * rate
  fixedTax + rateOverCL

/-! ## The decimal operations in closed form -/

namespace Decimal

theorem roundHalfAway_intCast (n : ℤ) : roundHalfAway (n : ℚ) = n := by
  unfold roundHalfAway
  split_ifs with h
  · rw [Int.floor_eq_iff]; constructor <;> linarith
  · rw [neg_eq_iff_eq_neg, Int.floor_eq_iff]; push_cast; constructor <;> linarith

theorem roundHalfAway_mono {x y : ℚ} (h : x ≤ y) : roundHalfAway x ≤ roundHalfAway y := by
  unfold roundHalfAway
  split_ifs with hx hy hy
  · exact Int.floor_mono (by linarith)
  · exact absurd (le_trans hx h) hy
  · have h1 : (0 : ℤ) ≤ ⌊-x + 1 / 2⌋ := Int.floor_nonneg.mpr (by linarith)
    have h2 : (0 : ℤ) ≤ ⌊y + 1 / 2⌋ := Int.floor_nonneg.mpr (by linarith)
    omega
  · have := Int.floor_mono (show -y + 1 / 2 ≤ -x + 1 / 2 by linarith)
    omega

theorem roundHalfAway_le (x : ℚ) : (roundHalfAway x : ℚ) ≤ x + 1 / 2 := by
  unfold roundHalfAway
  split_ifs with h
  · exact Int.floor_le _
  · have := Int.lt_floor_add_one (-x + 1 / 2)
    push_cast; linarith

theorem le_roundHalfAway (x : ℚ) : x - 1 / 2 ≤ (roundHalfAway x : ℚ) := by
  unfold roundHalfAway
  split_ifs with h
  · have := Int.lt_floor_add_one (x + 1 / 2)
    linarith
  · have := Int.floor_le (-x + 1 / 2)
    push_cast; linarith

theorem floor_ten_mul_add_five_div (z : ℚ) : (⌊10 * z⌋ + 5) / 10 = ⌊z + 1 / 2⌋ := by
  symm
  rw [Int.floor_eq_iff]
  have h1 := Int.floor_le (10 * z)
  have h2 := Int.lt_floor_add_one (10 * z)
  have h3 : (⌊10 * z⌋ + 5) / 10 * 10 ≤ ⌊10 * z⌋ + 5 := Int.ediv_mul_le _ (by norm_num)
  have h4 : ⌊10 * z⌋ + 5 + 1 ≤ ((⌊10 * z⌋ + 5) / 10 + 1) * 10 :=
    Int.lt_ediv_add_one_mul_self _ (by norm_num)
  have h3q : (((⌊10 * z⌋ + 5) / 10 * 10 : ℤ) : ℚ) ≤ ((⌊10 * z⌋ + 5 : ℤ) : ℚ) := by exact_mod_cast h3
  have h4q : ((⌊10 * z⌋ + 5 + 1 : ℤ) : ℚ) ≤ ((((⌊10 * z⌋ + 5) / 10 + 1) * 10 : ℤ) : ℚ) := by
    exact_mod_cast h4
  push_cast at h3q h4q
  constructor <;> linarith

theorem Round_eq (d : ℚ) (places : ℕ) :
    Round d places = (roundHalfAway (d * 10 ^ places) : ℚ) / 10 ^ places := by
  have hP : (0 : ℚ) < 10 ^ places := by positivity
  have hpow : d * 10 ^ (places + 1) = 10 * (d * 10 ^ places) := by ring
  unfold Round
  simp only [hpow]
  congr 2
  unfold roundHalfAway trunc
  by_cases hY : 0 ≤ d * 10 ^ places
  · have h10 : (0 : ℚ) ≤ 10 * (d * 10 ^ places) := by linarith
    have ht : (0 : ℤ) ≤ ⌊10 * (d * 10 ^ places)⌋ := Int.floor_nonneg.mpr h10
    have hk := floor_ten_mul_add_five_div (d * 10 ^ places)
    simp only [if_pos hY, if_pos h10]
    rw [← hk]
    split_ifs <;> omega
  · have h10 : ¬ (0 : ℚ) ≤ 10 * (d * 10 ^ places) := by intro h; apply hY; linarith
    have hneg : -(10 * (d * 10 ^ places)) = 10 * (-(d * 10 ^ places)) := by ring
    have ht : (0 : ℤ) ≤ ⌊10 * (-(d * 10 ^ places))⌋ := Int.floor_nonneg.mpr (by linarith)
    have hk := floor_ten_mul_add_five_div (-(d * 10 ^ places))
    simp only [if_neg hY, if_neg h10, hneg]
    rw [← hk]
    split_ifs <;> omega

theorem DivRound_eq (d : ℚ) {d2 : ℚ} (hd2 : 0 < d2) (precision : ℕ) :
    DivRound d d2 precision
      = (roundHalfAway (d / d2 * 10 ^ precision) : ℚ) / 10 ^ precision := by
  have hP : (0 : ℚ) < 10 ^ precision := by positivity
  have hd : d = d2 * (d / d2 * 10 ^ precision) / 10 ^ precision := by
    field_simp
  have habs : |d2| = d2 := abs_of_pos hd2
  have hS2 : Sign d2 = 1 := by
    unfold Sign
    rw [if_neg (not_lt.mpr hd2.le), if_neg hd2.ne']
  generalize hX : d / d2 * 10 ^ precision = X at hd
  unfold DivRound QuoRem
  simp only [hX, habs, hS2, mul_one]
  unfold roundHalfAway trunc
  by_cases hX0 : 0 ≤ X
  · simp only [if_pos hX0]
    have h1 := Int.floor_le X
    have h2 := Int.lt_floor_add_one X
    have hr : d - d2 * ((⌊X⌋ : ℚ) / 10 ^ precision) = d2 * (X - ⌊X⌋) / 10 ^ precision := by
      rw [hd]; ring
    have hrn : 0 ≤ d2 * (X - ⌊X⌋) / 10 ^ precision :=
      div_nonneg (mul_nonneg hd2.le (by linarith)) hP.le
    rw [hr, abs_of_nonneg hrn]
    have hcond : 2 * (d2 * (X - ⌊X⌋) / 10 ^ precision) * 10 ^ precision
        = d2 * (2 * (X - ⌊X⌋)) := by field_simp; ring
    rw [hcond]
    have hdn : 0 ≤ d := by rw [hd]; exact div_nonneg (mul_nonneg hd2.le hX0) hP.le
    have hSd : ¬ Sign d < 0 := by
      unfold Sign
      split_ifs with ha hb
      · exact absurd hdn (not_le.mpr ha)
      · norm_num
      · norm_num
    by_cases hc : d2 * (2 * (X - ⌊X⌋)) < d2
    · have hlt : 2 * (X - ⌊X⌋) < 1 := by
        by_contra hge
        have := mul_le_mul_of_nonneg_left (not_lt.mp hge) hd2.le
        linarith
      have hf : ⌊X + 1 / 2⌋ = ⌊X⌋ := by
        rw [Int.floor_eq_iff]; constructor <;> linarith
      rw [if_pos hc, hf]
    · have hge : 1 ≤ 2 * (X - ⌊X⌋) := by
        by_contra hlt
        have := mul_lt_mul_of_pos_left (not_le.mp hlt) hd2
        apply hc; linarith
      have hf : ⌊X + 1 / 2⌋ = ⌊X⌋ + 1 := by
        rw [Int.floor_eq_iff]; push_cast; constructor <;> linarith
      rw [if_neg hc, if_neg hSd, hf]
      push_cast; field_simp
  · simp only [if_neg hX0]
    have hXn : X < 0 := not_le.mp hX0
    have h1 := Int.floor_le (-X)
    have h2 := Int.lt_floor_add_one (-X)
    have hr : d - d2 * (((-⌊-X⌋ : ℤ) : ℚ) / 10 ^ precision)
        = -(d2 * (-X - ⌊-X⌋) / 10 ^ precision) := by
      rw [hd]; push_cast; ring
    have hrn : 0 ≤ d2 * (-X - ⌊-X⌋) / 10 ^ precision :=
      div_nonneg (mul_nonneg hd2.le (by linarith)) hP.le
    rw [hr, abs_neg, abs_of_nonneg hrn]
    have hcond : 2 * (d2 * (-X - ⌊-X⌋) / 10 ^ precision) * 10 ^ precision
        = d2 * (2 * (-X - ⌊-X⌋)) := by field_simp; ring
    rw [hcond]
    have hdneg : d < 0 := by
      rw [hd]; exact div_neg_of_neg_of_pos (mul_neg_of_pos_of_neg hd2 hXn) hP
    have hSd : Sign d < 0 := by
      unfold Sign
      rw [if_pos hdneg]; norm_num
    by_cases hc : d2 * (2 * (-X - ⌊-X⌋)) < d2
    · have hlt : 2 * (-X - ⌊-X⌋) < 1 := by
        by_contra hge
        have := mul_le_mul_of_nonneg_left (not_lt.mp hge) hd2.le
        linarith
      have hf : ⌊-X + 1 / 2⌋ = ⌊-X⌋ := by
        rw [Int.floor_eq_iff]; constructor <;> linarith
      rw [if_pos hc, hf]
    · have hge : 1 ≤ 2 * (-X - ⌊-X⌋) := by
        by_contra hlt
        have := mul_lt_mul_of_pos_left (not_le.mp hlt) hd2
        apply hc; linarith
      have hf : ⌊-X + 1 / 2⌋ = ⌊-X⌋ + 1 := by
        rw [Int.floor_eq_iff]; push_cast; constructor <;> linarith
      rw [if_neg hc, if_pos hSd, hf]
      push_cast; field_simp; ring

theorem DivRound_mono {a b d2 : ℚ} (hd2 : 0 < d2) (h : a ≤ b) (precision : ℕ) :
    DivRound a d2 precision ≤ DivRound b d2 precision := by
  have hP : (0 : ℚ) < 10 ^ precision := by positivity
  rw [DivRound_eq a hd2, DivRound_eq b hd2]
  apply div_le_div_of_nonneg_right _ hP.le
  have : a / d2 * 10 ^ precision ≤ b / d2 * 10 ^ precision :=
    mul_le_mul_of_nonneg_right (div_le_div_of_nonneg_right h hd2.le) hP.le
  exact_mod_cast roundHalfAway_mono this

theorem Div_mono {a b d2 : ℚ} (hd2 : 0 < d2) (h : a ≤ b) : Div a d2 ≤ Div b d2 :=
  DivRound_mono hd2 h DivisionPrecision

theorem Div_eq_of_intCast (d : ℚ) {d2 : ℚ} (hd2 : 0 < d2) (n : ℤ)
    (h : d / d2 * 10 ^ 16 = (n : ℚ)) : Div d d2 = d / d2 := by
  unfold Div DivisionPrecision
  have hne : d2 ≠ 0 := hd2.ne'
  rw [DivRound_eq d hd2, h, roundHalfAway_intCast, ← h]
  field_simp
  ring

theorem Round_mono {a b : ℚ} (h : a ≤ b) (places : ℕ) : Round a places ≤ Round b places := by
  have hP : (0 : ℚ) < 10 ^ places := by positivity
  rw [Round_eq, Round_eq]
  apply div_le_div_of_nonneg_right _ hP.le
  exact_mod_cast roundHalfAway_mono (mul_le_mul_of_nonneg_right h hP.le)

theorem Round_eq_of_intCast (d : ℚ) (places : ℕ) (n : ℤ)
    (h : d * 10 ^ places = (n : ℚ)) : Round d places = d := by
  rw [Round_eq, h, roundHalfAway_intCast, ← h]
  field_simp

theorem Floor_mono {a b : ℚ} (h : a ≤ b) : Floor a ≤ Floor b := by
  unfold Floor
  exact_mod_cast Int.floor_mono h

end Decimal


/-! ## The contributions -/

theorem getSSSMSC_mono {a b : ℚ} (h : a ≤ b) : getSSSMSC a ≤ getSSSMSC b := by
  unfold getSSSMSC
  apply min_le_min_left
  apply mul_le_mul_of_nonneg_right _ (by norm_num)
  exact Decimal.Floor_mono (Decimal.Div_mono (by norm_num) (by linarith))

theorem getSSSMSC_le (s : ℚ) : getSSSMSC s ≤ 25000 := by
  unfold getSSSMSC
  exact min_le_left _ _

theorem Div_25000_500 : Decimal.Div 25000 500 = 50 := by
  norm_num [Decimal.Div, Decimal.DivRound, Decimal.QuoRem, Decimal.trunc,
    Decimal.DivisionPrecision]

theorem getSSSMSC_eq_cap {s : ℚ} (h : 24750 ≤ s) : getSSSMSC s = 25000 := by
  unfold getSSSMSC
  apply min_eq_left
  have h1 : Decimal.Div 25000 500 ≤ Decimal.Div (s + 250) 500 :=
    Decimal.Div_mono (by norm_num) (by linarith)
  rw [Div_25000_500] at h1
  have h2 := Decimal.Floor_mono h1
  have h3 : Decimal.Floor 50 = 50 := by norm_num [Decimal.Floor]
  rw [h3] at h2
  linarith

/-- C1: for gross salary 20000.00 `compute` yields SSS 900.00, PhilHealth
400.00, Pag-IBIG 100.00, total contributions 1400.00, taxable income
18600.00, income tax 0.00, net pay after tax 20000.00, total deductions
1400.00 and net salary 18600.00. -/
theorem compute_salary_20000 :
    compute 20000 =
      { SSSContri := 900
        philHealthContri := 400
        pagIBIGContri := 100
        totalContri := 1400
        taxableIncome := 18600
        incomeTax := 0
        netPayAfterTax := 20000
        totalDeductions := 1400
        netSalary := 18600 } := by
  norm_num [compute, getSSSContri, getSSSMSC, getPhilHealthContri, getPagIBIGContri,
    getWithholdingTax, scanTaxTable, monthlyTaxTable, Decimal.Floor, Decimal.Div,
    Decimal.DivRound, Decimal.QuoRem, Decimal.Round, Decimal.trunc, Decimal.Sign,
    Decimal.DivisionPrecision]

/-- C2: `getWithholdingTax` splits the taxable incomes into six disjoint,
exhaustive, contiguous intervals, an upper bound belonging to the lower
bracket: each row is returned exactly on its interval, the loop always
selects a row, 20833.00 falls in row 1 and 20833.01 in row 2. -/
theorem getWithholdingTax_partition (x : ℚ) :
    (getWithholdingTax x = (0, 0, 0) ↔ x ≤ 20833) ∧
    (getWithholdingTax x = (0, 2 / 10, 20833) ↔ 20833 < x ∧ x ≤ 33332) ∧
    (getWithholdingTax x = (2500, 25 / 100, 33333) ↔ 33332 < x ∧ x ≤ 66666) ∧
    (getWithholdingTax x = (1083333 / 100, 3 / 10, 66667) ↔ 66666 < x ∧ x ≤ 166666) ∧
    (getWithholdingTax x = (4083333 / 100, 32 / 100, 166667) ↔ 166666 < x ∧ x ≤ 666666) ∧
    (getWithholdingTax x = (20083333 / 100, 35 / 100, 666667) ↔ 666666 < x) ∧
    (scanTaxTable monthlyTaxTable x).isSome = true ∧
    getWithholdingTax 20833 = (0, 0, 0) ∧
    getWithholdingTax (2083301 / 100) = (0, 2 / 10, 20833) := by
  refine ⟨?_, ?_, ?_, ?_, ?_, ?_, ?h7, ?h8, ?h9⟩
  case h7 =>
    simp only [scanTaxTable, monthlyTaxTable]
    split_ifs <;> rfl
  case h8 => norm_num [getWithholdingTax, scanTaxTable, monthlyTaxTable]
  case h9 => norm_num [getWithholdingTax, scanTaxTable, monthlyTaxTable]
  all_goals simp only [getWithholdingTax, scanTaxTable, monthlyTaxTable]
  all_goals split_ifs
  all_goals simp only [Prod.mk.injEq]
  all_goals constructor
  all_goals intro hh
  all_goals first
    | linarith
    | (constructor <;> linarith)

/-- C3: `getSSSContri` is monotonically non-decreasing: for salaries
`0 ≤ a ≤ b`, `getSSSContri a ≤ getSSSContri b`, also across the switch from
the fixed 135.00 to 4.5% of the credit. -/
theorem getSSSContri_mono (a b : ℚ) (_ha : 0 ≤ a) (hab : a ≤ b) :
    getSSSContri a ≤ getSSSContri b := by
  have hm := getSSSMSC_mono hab
  unfold getSSSContri
  simp only
  split_ifs with h1 h2 h2
  · exact le_refl _
  · linarith
  · linarith
  · linarith

/-- Witness of C3 across the switch: salaries 3000 and 3250. -/
theorem getSSSContri_mono_witness :
    (0 : ℚ) ≤ 3000 ∧ (3000 : ℚ) ≤ 3250 ∧ getSSSContri 3000 ≤ getSSSContri 3250 :=
  ⟨by norm_num, by norm_num, getSSSContri_mono 3000 3250 (by norm_num) (by norm_num)⟩

theorem getSSSContri_bound (salary : ℚ) : getSSSContri salary ≤ 1125 := by
  have hm := getSSSMSC_le salary
  unfold getSSSContri
  simp only
  split_ifs <;> linarith

/-- C4: for every salary `≥ 0`, `getSSSContri` is at most 1125.00, and it
equals 1125.00 for every salary `≥ 24750`. -/
theorem getSSSContri_le_cap (salary : ℚ) (_h : 0 ≤ salary) :
    getSSSContri salary ≤ 1125 ∧ (24750 ≤ salary → getSSSContri salary = 1125) := by
  constructor
  · exact getSSSContri_bound salary
  · intro h2
    unfold getSSSContri
    rw [getSSSMSC_eq_cap h2]
    norm_num

/-- Witness of C4 at salary 30000. -/
theorem getSSSContri_le_cap_witness :
    (0 : ℚ) ≤ 30000 ∧ getSSSContri 30000 ≤ 1125 ∧ getSSSContri 30000 = 1125 :=
  ⟨by norm_num, (getSSSContri_le_cap 30000 (by norm_num)).1,
    (getSSSContri_le_cap 30000 (by norm_num)).2 (by norm_num)⟩

theorem Div_400_2 : Decimal.Div 400 2 = 200 := by
  norm_num [Decimal.Div, Decimal.DivRound, Decimal.QuoRem, Decimal.trunc,
    Decimal.DivisionPrecision]

theorem Div_3200_2 : Decimal.Div 3200 2 = 1600 := by
  norm_num [Decimal.Div, Decimal.DivRound, Decimal.QuoRem, Decimal.trunc,
    Decimal.DivisionPrecision]

theorem getPhilHealthContri_bound (salary : ℚ) : getPhilHealthContri salary ≤ 1600 := by
  unfold getPhilHealthContri
  simp only
  split_ifs with h1 h2
  · rw [Div_400_2]; norm_num
  · rw [Div_3200_2]
  · rw [← Div_3200_2]
    exact Decimal.Div_mono (by norm_num) (by linarith [not_le.mp h2])

/-- C5: for every salary, of any sign, `getPhilHealthContri` is at most
1600.00. -/
theorem getPhilHealthContri_le (salary : ℚ) : getPhilHealthContri salary ≤ 1600 :=
  getPhilHealthContri_bound salary

/-- C6: at salary 10000.000000000000001 `getPhilHealthContri` returns 200,
whereas the half of `salary * 0.04`, which the claim states and the comment
"result is halved" of the source intends, is 200.00000000000000002: `Div`
rounds the quotient to 16 fractional digits. -/
theorem getPhilHealthContri_ne_spec :
    getPhilHealthContri (10000000000000000001 / 1000000000000000) = 200 ∧
    healthInsuranceContribution_spec (10000000000000000001 / 1000000000000000)
      = 20000000000000000002 / 100000000000000000 ∧
    getPhilHealthContri (10000000000000000001 / 1000000000000000)
      ≠ healthInsuranceContribution_spec (10000000000000000001 / 1000000000000000) := by
  have h1 : getPhilHealthContri (10000000000000000001 / 1000000000000000) = 200 := by
    norm_num [getPhilHealthContri, Decimal.Div, Decimal.DivRound, Decimal.QuoRem,
      Decimal.trunc, Decimal.DivisionPrecision, abs_of_pos]
  have h2 : healthInsuranceContribution_spec (10000000000000000001 / 1000000000000000)
      = 20000000000000000002 / 100000000000000000 := by
    norm_num [healthInsuranceContribution_spec]
  refine ⟨h1, h2, ?_⟩
  rw [h1, h2]
  norm_num

theorem clamp_mul_eq (salary : ℚ) :
    (if salary ≤ 10000 then (400 : ℚ) else if salary ≥ 80000 then 3200
      else salary * (4 / 100)) = min (max salary 10000) 80000 * (4 / 100) := by
  split_ifs with h1 h2
  · rw [max_eq_right h1, min_eq_left (by norm_num)]; norm_num
  · rw [max_eq_left (by linarith), min_eq_right h2]; norm_num
  · rw [max_eq_left (le_of_lt (not_le.mp h1)), min_eq_left (le_of_lt (not_le.mp h2))]

/-- Extent of the deviation of `getPhilHealthContri` from the exact half:
the result is the clamped salary times 0.04, divided by 2 with the quotient
rounded to 16 fractional digits; it is the exact half for every salary with
at most 14 fractional digits, and at the breakpoints 10000 and 80000. -/
theorem getPhilHealthContri_eq_clamp (salary : ℚ) :
    getPhilHealthContri salary
      = Decimal.Div (min (max salary 10000) 80000 * (4 / 100)) 2 ∧
    ((∃ n : ℤ, salary * 10 ^ 14 = (n : ℚ)) →
      getPhilHealthContri salary = healthInsuranceContribution_spec salary) ∧
    getPhilHealthContri 10000 = 10000 * (4 / 100) / 2 ∧
    getPhilHealthContri 80000 = 80000 * (4 / 100) / 2 := by
  have hfirst : ∀ s : ℚ, getPhilHealthContri s
      = Decimal.Div (min (max s 10000) 80000 * (4 / 100)) 2 := by
    intro s
    unfold getPhilHealthContri
    simp only
    rw [clamp_mul_eq]
  refine ⟨hfirst salary, ?_, ?_, ?_⟩
  · rintro ⟨n, hn⟩
    rw [hfirst, healthInsuranceContribution_spec]
    obtain ⟨k, hk⟩ : ∃ k : ℤ, min (max salary 10000) 80000 * 10 ^ 14 = (k : ℚ) := by
      rcases le_total salary 10000 with h1 | h1
      · refine ⟨10000 * 10 ^ 14, ?_⟩
        rw [max_eq_right h1, min_eq_left (by norm_num)]; push_cast; ring
      · rcases le_total salary 80000 with h2 | h2
        · exact ⟨n, by rw [max_eq_left h1, min_eq_left h2, hn]⟩
        · refine ⟨80000 * 10 ^ 14, ?_⟩
          rw [max_eq_left h1, min_eq_right h2]; push_cast; ring
    apply Decimal.Div_eq_of_intCast _ (by norm_num) (2 * k)
    push_cast
    rw [← hk]
    ring
  · rw [hfirst]
    norm_num [Decimal.Div, Decimal.DivRound, Decimal.QuoRem, Decimal.trunc,
      Decimal.DivisionPrecision]
  · rw [hfirst]
    norm_num [Decimal.Div, Decimal.DivRound, Decimal.QuoRem, Decimal.trunc,
      Decimal.DivisionPrecision]

/-- The exact half at salary 25000.50. -/
theorem getPhilHealthContri_eq_clamp_witness :
    (∃ n : ℤ, (2500050 / 100 : ℚ) * 10 ^ 14 = (n : ℚ)) ∧
    getPhilHealthContri (2500050 / 100) = healthInsuranceContribution_spec (2500050 / 100) :=
  ⟨⟨2500050000000000000, by norm_num⟩,
    (getPhilHealthContri_eq_clamp (2500050 / 100)).2.1 ⟨2500050000000000000, by norm_num⟩⟩

theorem getPagIBIGContri_bound (salary : ℚ) : getPagIBIGContri salary ≤ 100 := by
  unfold getPagIBIGContri
  simp only
  have hm : min salary 5000 ≤ 5000 := min_le_right _ _
  split_ifs with h <;> linarith

/-- C7: for every salary, of any sign, `getPagIBIGContri` is at most 100.00,
with equality for every salary `≥ 5000`. -/
theorem getPagIBIGContri_le (salary : ℚ) :
    getPagIBIGContri salary ≤ 100 ∧ (5000 ≤ salary → getPagIBIGContri salary = 100) := by
  constructor
  · exact getPagIBIGContri_bound salary
  · intro h
    unfold getPagIBIGContri
    simp only
    rw [min_eq_right h]
    norm_num

/-- Witness of C7 at salary 6000. -/
theorem getPagIBIGContri_le_witness :
    (5000 : ℚ) ≤ 6000 ∧ getPagIBIGContri 6000 = 100 :=
  ⟨by norm_num, (getPagIBIGContri_le 6000).2 (by norm_num)⟩

/-! ## The pipeline -/

theorem compute_taxableIncome (salary : ℚ) :
    (compute salary).taxableIncome
      = salary - Decimal.Round
          (getSSSContri salary + getPhilHealthContri salary + getPagIBIGContri salary) 2 :=
  rfl

theorem compute_zero_eq :
    compute 0 =
      { SSSContri := 135
        philHealthContri := 200
        pagIBIGContri := 0
        totalContri := 335
        taxableIncome := -335
        incomeTax := 0
        netPayAfterTax := 0
        totalDeductions := 335
        netSalary := -335 } := by
  norm_num [compute, getSSSContri, getSSSMSC, getPhilHealthContri, getPagIBIGContri,
    getWithholdingTax, scanTaxTable, monthlyTaxTable, Decimal.Floor, Decimal.Div,
    Decimal.DivRound, Decimal.QuoRem, Decimal.Round, Decimal.trunc, Decimal.Sign,
    Decimal.DivisionPrecision]

/-- Counterexample to C8 as stated: at gross salary 0.00 the SSS, PhilHealth
and total contributions are 135.00, 200.00 and 335.00, not 0.00. -/
theorem compute_zero_contributions_ne_zero :
    (compute 0).SSSContri = 135 ∧ (compute 0).philHealthContri = 200 ∧
    (compute 0).totalContri = 335 ∧
    ¬ ((compute 0).SSSContri = 0 ∧ (compute 0).philHealthContri = 0 ∧
        (compute 0).pagIBIGContri = 0 ∧ (compute 0).totalContri = 0 ∧
        (compute 0).incomeTax = 0) := by
  rw [compute_zero_eq]
  norm_num

/-- C8 (amended): for gross salary 0.00 the Pag-IBIG contribution and the
income tax are 0.00, the SSS contribution is the fixed 135.00, the PhilHealth
contribution 200.00 and the total contributions 335.00; taxable income and
net salary are -335.00. -/
theorem compute_salary_zero :
    (compute 0).SSSContri = 135 ∧ (compute 0).philHealthContri = 200 ∧
    (compute 0).pagIBIGContri = 0 ∧ (compute 0).totalContri = 335 ∧
    (compute 0).taxableIncome = -335 ∧ (compute 0).incomeTax = 0 ∧
    (compute 0).netPayAfterTax = 0 ∧ (compute 0).totalDeductions = 335 ∧
    (compute 0).netSalary = -335 := by
  rw [compute_zero_eq]
  exact ⟨rfl, rfl, rfl, rfl, rfl, rfl, rfl, rfl, rfl⟩

/-- Counterexample to C9 as stated: at gross salary 0.00 the taxable income
is -335.00. -/
theorem taxableIncome_neg_at_zero :
    (0 : ℚ) ≤ 0 ∧ (compute 0).taxableIncome = -335 ∧ ¬ (0 ≤ (compute 0).taxableIncome) := by
  rw [compute_zero_eq]
  norm_num

theorem Round_two_of_nonneg {y : ℚ} (hy : 0 ≤ y) :
    Decimal.Round y 2 = (⌊y * 100 + 1 / 2⌋ : ℚ) / 100 := by
  have h100 : (10 : ℚ) ^ 2 = 100 := by norm_num
  rw [Decimal.Round_eq, h100]
  unfold Decimal.roundHalfAway
  rw [if_pos (by linarith)]

theorem getSSSContri_of_le {s : ℚ} (h : s ≤ 3000) : getSSSContri s = 135 := by
  have h1 : getSSSMSC 3000 = 3000 := by
    norm_num [getSSSMSC, Decimal.Floor, Decimal.Div, Decimal.DivRound, Decimal.QuoRem,
      Decimal.trunc, Decimal.DivisionPrecision]
  have h2 := getSSSMSC_mono h
  unfold getSSSContri
  simp only
  rw [if_pos (by linarith)]

theorem getPhilHealthContri_of_le {s : ℚ} (h : s ≤ 10000) : getPhilHealthContri s = 200 := by
  unfold getPhilHealthContri
  simp only
  rw [if_pos h, Div_400_2]

theorem getPagIBIGContri_of_le {s : ℚ} (h : s ≤ 1500) : getPagIBIGContri s = s * (1 / 100) := by
  unfold getPagIBIGContri
  simp only
  rw [min_eq_left (by linarith), if_pos h]

theorem totalContri_small {s : ℚ} (h0 : 0 ≤ s) (h : s ≤ 1500) :
    Decimal.Round (getSSSContri s + getPhilHealthContri s + getPagIBIGContri s) 2
      = (⌊s + 67001 / 2⌋ : ℚ) / 100 := by
  rw [getSSSContri_of_le (by linarith), getPhilHealthContri_of_le (by linarith),
    getPagIBIGContri_of_le h, Round_two_of_nonneg (by linarith)]
  congr 3
  ring

theorem Round_2825 : Decimal.Round 2825 2 = 2825 := by
  norm_num [Decimal.Round, Decimal.trunc]

theorem Round_435 : Decimal.Round 435 2 = 435 := by
  norm_num [Decimal.Round, Decimal.trunc]

/-- C9 (amended): for every gross salary `≥ 0`, the taxable income that
`compute` passes to `getWithholdingTax` is non-negative exactly when the
salary is at least 338.38; below that the fixed contributions exceed the
salary. -/
theorem taxableIncome_nonneg_iff (salary : ℚ) (h : 0 ≤ salary) :
    0 ≤ (compute salary).taxableIncome ↔ 33838 / 100 ≤ salary := by
  rw [compute_taxableIncome]
  constructor
  · intro ht
    by_contra hlt
    have hlt : salary < 33838 / 100 := not_le.mp hlt
    rw [totalContri_small h (by linarith)] at ht
    have hn : ⌊salary * 100⌋ < 33838 := by
      rw [Int.floor_lt]; push_cast; linarith
    have hn1 : (⌊salary * 100⌋ : ℚ) ≤ 33837 := by
      have : ⌊salary * 100⌋ ≤ 33837 := by omega
      exact_mod_cast this
    have hfl := Int.floor_le (salary * 100)
    have hfl2 := Int.lt_floor_add_one (salary * 100)
    have hge : ⌊salary * 100⌋ + 1 ≤ ⌊salary + 67001 / 2⌋ := by
      rw [Int.le_floor]; push_cast; linarith
    have hgeq : ((⌊salary * 100⌋ + 1 : ℤ) : ℚ) ≤ (⌊salary + 67001 / 2⌋ : ℚ) := by
      exact_mod_cast hge
    push_cast at hgeq
    linarith
  · intro hge
    have hsss := getSSSContri_bound salary
    have hphil := getPhilHealthContri_bound salary
    have hpag := getPagIBIGContri_bound salary
    rcases le_total 2825 salary with h1 | h1
    · have := Decimal.Round_mono
        (show getSSSContri salary + getPhilHealthContri salary + getPagIBIGContri salary
          ≤ 2825 by linarith) 2
      rw [Round_2825] at this
      linarith
    · rcases le_total 435 salary with h2 | h2
      · have := Decimal.Round_mono
          (show getSSSContri salary + getPhilHealthContri salary + getPagIBIGContri salary
            ≤ 435 by
              rw [getSSSContri_of_le (by linarith), getPhilHealthContri_of_le (by linarith)]
              linarith) 2
        rw [Round_435] at this
        linarith
      · rw [totalContri_small h (by linarith)]
        have hn : (33838 : ℤ) ≤ ⌊salary * 100⌋ := by
          rw [Int.le_floor]; push_cast; linarith
        have hnq : ((33838 : ℤ) : ℚ) ≤ (⌊salary * 100⌋ : ℚ) := by exact_mod_cast hn
        push_cast at hnq
        have hfl := Int.floor_le (salary * 100)
        have hfl2 := Int.lt_floor_add_one (salary * 100)
        have hle : ⌊salary + 67001 / 2⌋ ≤ ⌊salary * 100⌋ := by
          rw [← Int.lt_add_one_iff, Int.floor_lt]; push_cast; linarith
        have hleq : (⌊salary + 67001 / 2⌋ : ℚ) ≤ (⌊salary * 100⌋ : ℚ) := by
          exact_mod_cast hle
        linarith

/-- Witness of the amended C9 at gross salary 338.38, where the taxable income
is exactly zero. -/
theorem taxableIncome_nonneg_iff_witness :
    (0 : ℚ) ≤ 33838 / 100 ∧ 0 ≤ (compute (33838 / 100)).taxableIncome :=
  ⟨by norm_num, (taxableIncome_nonneg_iff (33838 / 100) (by norm_num)).2 (by norm_num)⟩

theorem getSSSContri_3526276 : getSSSContri (3526276 / 100) = 1125 := by
  unfold getSSSContri
  rw [getSSSMSC_eq_cap (by norm_num)]
  norm_num

theorem getPhilHealthContri_3526276 :
    getPhilHealthContri (3526276 / 100) = 7052552 / 10000 := by
  norm_num [getPhilHealthContri, Decimal.Div, Decimal.DivRound, Decimal.QuoRem,
    Decimal.trunc, Decimal.DivisionPrecision]

/-- Counterexample to C10 as stated: taxable income 33332.50, which `compute`
reaches at gross salary 35262.76, selects row 3, whose compensation level
33333 is above it. -/
theorem compensationLevel_gt_income :
    (compute (3526276 / 100)).taxableIncome = 66665 / 2 ∧ (0 : ℚ) ≤ 66665 / 2 ∧
    getWithholdingTax (66665 / 2) = (2500, 25 / 100, 33333) ∧
    ¬ ((getWithholdingTax (66665 / 2)).2.2 ≤ 66665 / 2) := by
  have hw : getWithholdingTax (66665 / 2) = (2500, 25 / 100, 33333) := by
    simp only [getWithholdingTax, scanTaxTable, monthlyTaxTable]
    norm_num
  refine ⟨?_, by norm_num, hw, ?_⟩
  · rw [compute_taxableIncome, getSSSContri_3526276, getPhilHealthContri_3526276]
    norm_num [getPagIBIGContri, Decimal.Round, Decimal.trunc]
  · rw [hw]
    norm_num

/-- C10 (amended): for every taxable income `x ≥ 0` the compensation level
returned by `getWithholdingTax` is below `x + 1`, and it is at most `x`
exactly when `x` does not lie strictly between a bracket's upper bound and
the next bracket's compensation level. -/
theorem compensationLevel_le_iff (x : ℚ) (hx : 0 ≤ x) :
    (getWithholdingTax x).2.2 < x + 1 ∧
    ((getWithholdingTax x).2.2 ≤ x ↔
      ¬ ((33332 < x ∧ x < 33333) ∨ (66666 < x ∧ x < 66667) ∨
         (166666 < x ∧ x < 166667) ∨ (666666 < x ∧ x < 666667))) := by
  simp only [getWithholdingTax, scanTaxTable, monthlyTaxTable]
  split_ifs with h1 h2 h3 h4 h5
  all_goals simp only [not_or, not_and, not_lt]
  all_goals refine ⟨by linarith, ?_⟩
  all_goals constructor
  · intro _
    refine ⟨?_, ?_, ?_, ?_⟩ <;> intro h <;> linarith
  · intro _; exact hx
  · intro _
    refine ⟨?_, ?_, ?_, ?_⟩ <;> intro h <;> linarith
  · intro _; linarith
  · intro hh
    refine ⟨?_, ?_, ?_, ?_⟩ <;> intro h <;> linarith
  · intro hh; exact hh.1 (by linarith)
  · intro hh
    refine ⟨?_, ?_, ?_, ?_⟩ <;> intro h <;> linarith
  · intro hh; exact hh.2.1 (by linarith)
  · intro hh
    refine ⟨?_, ?_, ?_, ?_⟩ <;> intro h <;> linarith
  · intro hh; exact hh.2.2.1 (by linarith)
  · intro hh
    refine ⟨?_, ?_, ?_, ?_⟩ <;> intro h <;> linarith
  · intro hh; exact hh.2.2.2 (by linarith)

/-- Witness of the amended C10 at taxable income 40000. -/
theorem compensationLevel_le_iff_witness :
    (0 : ℚ) ≤ 40000 ∧ (getWithholdingTax 40000).2.2 < 40000 + 1 :=
  ⟨by norm_num, (compensationLevel_le_iff 40000 (by norm_num)).1⟩

/-! ## Rounding checkpoints and the accounting identity -/

theorem compute_totalContri (salary : ℚ) :
    (compute salary).totalContri
      = Decimal.Round
          (getSSSContri salary + getPhilHealthContri salary + getPagIBIGContri salary) 2 :=
  rfl

theorem compute_incomeTax (salary : ℚ) :
    (compute salary).incomeTax
      = Decimal.Round (unroundedIncomeTax (compute salary).taxableIncome) 2 :=
  rfl

theorem compute_netPayAfterTax (salary : ℚ) :
    (compute salary).netPayAfterTax
      = Decimal.Round (salary - (compute salary).incomeTax) 2 :=
  rfl

theorem compute_totalDeductions (salary : ℚ) :
    (compute salary).totalDeductions
      = Decimal.Round ((compute salary).totalContri + (compute salary).incomeTax) 2 :=
  rfl

theorem compute_netSalary (salary : ℚ) :
    (compute salary).netSalary
      = Decimal.Round (salary - (compute salary).totalDeductions) 2 :=
  rfl

theorem Round_two_eq (d : ℚ) :
    Decimal.Round d 2 = (Decimal.roundHalfAway (d * 100) : ℚ) / 100 := by
  have h100 : (10 : ℚ) ^ 2 = 100 := by norm_num
  rw [Decimal.Round_eq, h100]

theorem Round_two_centavo (d : ℚ) : ∃ n : ℤ, Decimal.Round d 2 = (n : ℚ) / 100 :=
  ⟨Decimal.roundHalfAway (d * 100), Round_two_eq d⟩

theorem abs_Round_two_sub_le (d : ℚ) : |Decimal.Round d 2 - d| ≤ 5 / 1000 := by
  rw [Round_two_eq, abs_le]
  have h1 := Decimal.roundHalfAway_le (d * 100)
  have h2 := Decimal.le_roundHalfAway (d * 100)
  constructor <;> linarith

theorem Round_two_of_centavo {d : ℚ} (n : ℤ) (h : d = (n : ℚ) / 100) :
    Decimal.Round d 2 = d := by
  apply Decimal.Round_eq_of_intCast d 2 n
  rw [h]; norm_num

theorem getPhilHealthContri_2500025 :
    getPhilHealthContri (2500025 / 100) = 500005 / 1000 := by
  norm_num [getPhilHealthContri, Decimal.Div, Decimal.DivRound, Decimal.QuoRem,
    Decimal.trunc, Decimal.DivisionPrecision, abs_of_pos]

theorem getSSSContri_of_ge {s : ℚ} (h : 24750 ≤ s) : getSSSContri s = 1125 := by
  unfold getSSSContri
  rw [getSSSMSC_eq_cap h]
  norm_num

theorem getPagIBIGContri_of_ge {s : ℚ} (h : 5000 ≤ s) : getPagIBIGContri s = 100 := by
  unfold getPagIBIGContri
  simp only
  rw [min_eq_right h]
  norm_num

/-- C11: the rounding checkpoint of `compute`: for every salary `totalContri`
is the unrounded sum SSS + PhilHealth + Pag-IBIG rounded half away from zero
to 2 digits, so an exact multiple of 0.01 within 0.005 of the sum (salary
25000.25 gives the sum 1725.005 and `totalContri` 1725.01); `incomeTax`,
`netPayAfterTax`, `totalDeductions` and `netSalary` are exact multiples of
0.01 as well. -/
theorem compute_rounding_checkpoint (salary : ℚ) :
    (compute salary).totalContri
      = (Decimal.roundHalfAway (((compute salary).SSSContri
          + (compute salary).philHealthContri + (compute salary).pagIBIGContri) * 100) : ℚ)
        / 100 ∧
    (∃ n : ℤ, (compute salary).totalContri = (n : ℚ) / 100) ∧
    |(compute salary).totalContri - ((compute salary).SSSContri
        + (compute salary).philHealthContri + (compute salary).pagIBIGContri)| ≤ 5 / 1000 ∧
    (∃ n : ℤ, (compute salary).incomeTax = (n : ℚ) / 100) ∧
    (∃ n : ℤ, (compute salary).netPayAfterTax = (n : ℚ) / 100) ∧
    (∃ n : ℤ, (compute salary).totalDeductions = (n : ℚ) / 100) ∧
    (∃ n : ℤ, (compute salary).netSalary = (n : ℚ) / 100) ∧
    (compute (2500025 / 100)).SSSContri + (compute (2500025 / 100)).philHealthContri
        + (compute (2500025 / 100)).pagIBIGContri = 1725005 / 1000 ∧
    (compute (2500025 / 100)).totalContri = 172501 / 100 := by
  have hsum : getSSSContri (2500025 / 100) + getPhilHealthContri (2500025 / 100)
      + getPagIBIGContri (2500025 / 100) = 1725005 / 1000 := by
    rw [getSSSContri_of_ge (by norm_num), getPhilHealthContri_2500025,
      getPagIBIGContri_of_ge (by norm_num)]
    norm_num
  refine ⟨Round_two_eq _, Round_two_centavo _, abs_Round_two_sub_le _, Round_two_centavo _,
    Round_two_centavo _, Round_two_centavo _, Round_two_centavo _, hsum, ?_⟩
  rw [compute_totalContri, hsum]
  norm_num [Decimal.Round, Decimal.trunc]

/-! ## The monthly salary credit -/

theorem Div_500_eq (d : ℚ) :
    Decimal.Div d 500
      = (Decimal.roundHalfAway (d / 500 * 10 ^ 16) : ℚ) / 10 ^ 16 := by
  unfold Decimal.Div Decimal.DivisionPrecision
  exact Decimal.DivRound_eq d (by norm_num) 16

theorem Div_500_le (d : ℚ) : Decimal.Div d 500 ≤ d / 500 + 1 / (2 * 10 ^ 16) := by
  rw [Div_500_eq, div_le_iff₀ (by positivity)]
  have h := Decimal.roundHalfAway_le (d / 500 * 10 ^ 16)
  have e : (d / 500 + 1 / (2 * 10 ^ 16)) * 10 ^ 16 = d / 500 * 10 ^ 16 + 1 / 2 := by
    ring
  rw [e]
  exact h

theorem le_Div_500 (d : ℚ) : d / 500 - 1 / (2 * 10 ^ 16) ≤ Decimal.Div d 500 := by
  rw [Div_500_eq, le_div_iff₀ (by positivity)]
  have h := Decimal.le_roundHalfAway (d / 500 * 10 ^ 16)
  have e : (d / 500 - 1 / (2 * 10 ^ 16)) * 10 ^ 16 = d / 500 * 10 ^ 16 - 1 / 2 := by
    ring
  rw [e]
  exact h

/-- The quotient has 16 fractional digits, so its floor is at least the
quotient minus `1 - 10⁻¹⁶`. -/
theorem Floor_Div_500_ge (d : ℚ) :
    Decimal.Div d 500 - 1 + 1 / 10 ^ 16 ≤ Decimal.Floor (Decimal.Div d 500) := by
  unfold Decimal.Floor
  have hlt := Int.lt_floor_add_one (Decimal.Div d 500)
  rw [Div_500_eq] at hlt ⊢
  set N := Decimal.roundHalfAway (d / 500 * 10 ^ 16) with hN
  set m := ⌊(N : ℚ) / 10 ^ 16⌋ with hm
  have h1 : (N : ℚ) < ((m + 1) * 10 ^ 16 : ℤ) := by
    rw [div_lt_iff₀ (by positivity)] at hlt
    push_cast
    linarith
  have h2 : N < (m + 1) * 10 ^ 16 := by exact_mod_cast h1
  have h3 : N + 1 ≤ (m + 1) * 10 ^ 16 := h2
  have h4 : ((N + 1 : ℤ) : ℚ) ≤ (((m + 1) * 10 ^ 16 : ℤ) : ℚ) := by exact_mod_cast h3
  push_cast at h4
  have e : (N : ℚ) / 10 ^ 16 - 1 + 1 / 10 ^ 16 = ((N : ℚ) + 1 - 10 ^ 16) / 10 ^ 16 := by
    ring
  rw [e, div_le_iff₀ (by positivity)]
  linarith

theorem Floor_le (d : ℚ) : Decimal.Floor d ≤ d := by
  unfold Decimal.Floor
  exact Int.floor_le d

theorem getSSSMSC_threshold :
    getSSSMSC (3250 - 1 / (4 * 10 ^ 13)) = 3500 := by
  norm_num [getSSSMSC, Decimal.Floor, Decimal.Div, Decimal.DivRound, Decimal.QuoRem,
    Decimal.trunc, Decimal.DivisionPrecision, Decimal.Sign, abs_of_pos]

theorem getSSSMSC_lt_3250_iff (s : ℚ) :
    getSSSMSC s < 3250 ↔ s < 3250 - 1 / (4 * 10 ^ 13) := by
  constructor
  · intro h
    by_contra hge
    have := getSSSMSC_mono (not_lt.mp hge)
    rw [getSSSMSC_threshold] at this
    linarith
  · intro h
    have hD : Decimal.Div (s + 250) 500 < 7 := by
      rw [Div_500_eq, div_lt_iff₀ (by positivity)]
      have h1 := Decimal.roundHalfAway_le ((s + 250) / 500 * 10 ^ 16)
      have h2 : (s + 250) / 500 * 10 ^ 16 + 1 / 2 < 7 * 10 ^ 16 := by
        have : (s + 250) / 500 < 7 - 1 / (2 * 10 ^ 16) := by
          rw [div_lt_iff₀ (by norm_num)]
          have e : (7 - 1 / (2 * 10 ^ 16) : ℚ) * 500 = 3500 - 1 / (4 * 10 ^ 13) := by norm_num
          rw [e]; linarith
        have := mul_lt_mul_of_pos_right this (show (0 : ℚ) < 10 ^ 16 by positivity)
        have e2 : (7 - 1 / (2 * 10 ^ 16) : ℚ) * 10 ^ 16 = 7 * 10 ^ 16 - 1 / 2 := by norm_num
        rw [e2] at this
        linarith
      linarith
    have hF : ⌊Decimal.Div (s + 250) 500⌋ < 7 := by
      rw [Int.floor_lt]; exact_mod_cast hD
    have hF6 : ⌊Decimal.Div (s + 250) 500⌋ ≤ 6 := by omega
    have hFq : ((⌊Decimal.Div (s + 250) 500⌋ : ℤ) : ℚ) ≤ 6 := by exact_mod_cast hF6
    unfold getSSSMSC Decimal.Floor
    simp only
    have := min_le_right (25000 : ℚ) ((⌊Decimal.Div (s + 250) 500⌋ : ℚ) * 500)
    linarith

theorem getSSSContri_eq_135_iff_MSC (s : ℚ) : getSSSContri s = 135 ↔ getSSSMSC s < 3250 := by
  unfold getSSSContri
  simp only
  constructor
  · intro h
    by_contra hge
    rw [if_neg hge] at h
    have := not_lt.mp hge
    linarith
  · intro h
    rw [if_pos h]

/-- C12: at salary 3249.99999999999999, below 3250, the formula of the source
comment (`(salary + 250) // 500 * 500` with integer division) gives the
credit 3000 and so the fixed 135.00, whereas `getSSSMSC` returns 3500 and
`getSSSContri` 157.50: `Div` rounds the quotient 6.99999999999999998 to 7
before `Floor`. -/
theorem getSSSContri_ne_135_below_3250 :
    (0 : ℚ) ≤ 324999999999999999 / 100000000000000 ∧
    (324999999999999999 / 100000000000000 : ℚ) < 3250 ∧
    ((⌊((324999999999999999 / 100000000000000 : ℚ) + 250) / 500⌋ : ℤ) : ℚ) * 500 = 3000 ∧
    getSSSMSC (324999999999999999 / 100000000000000) = 3500 ∧
    getSSSContri (324999999999999999 / 100000000000000) = 1575 / 10 ∧
    ¬ (getSSSContri (324999999999999999 / 100000000000000) = 135
        ↔ (324999999999999999 / 100000000000000 : ℚ) < 3250) := by
  have hm : getSSSMSC (324999999999999999 / 100000000000000) = 3500 := by
    norm_num [getSSSMSC, Decimal.Floor, Decimal.Div, Decimal.DivRound,
      Decimal.QuoRem, Decimal.trunc, Decimal.DivisionPrecision, Decimal.Sign, abs_of_pos]
  have h : getSSSContri (324999999999999999 / 100000000000000) = 1575 / 10 := by
    unfold getSSSContri
    rw [hm]
    norm_num
  refine ⟨by norm_num, by norm_num, by norm_num, hm, h, ?_⟩
  rw [h]
  norm_num

/-- Extent of the deviation of `getSSSContri` from the fixed-minimum rule:
for every salary `≥ 0` the result is 135.00 exactly when the salary is below
3250 - 0.000000000000025, hence exactly when it is below 3250 for a salary
with at most 13 fractional digits; salary 0 yields 135.00, and for salary
`≥ 3250` the result is `getSSSMSC salary * 0.045`, at least 157.50. -/
theorem getSSSContri_eq_135_iff (salary : ℚ) (_h : 0 ≤ salary) :
    (getSSSContri salary = 135 ↔ salary < 3250 - 1 / (4 * 10 ^ 13)) ∧
    ((∃ n : ℤ, salary * 10 ^ 13 = (n : ℚ)) →
      (getSSSContri salary = 135 ↔ salary < 3250)) ∧
    getSSSContri 0 = 135 ∧
    (3250 ≤ salary →
      getSSSContri salary = getSSSMSC salary * (45 / 1000) ∧
      1575 / 10 ≤ getSSSContri salary) := by
  have hiff : getSSSContri salary = 135 ↔ salary < 3250 - 1 / (4 * 10 ^ 13) :=
    (getSSSContri_eq_135_iff_MSC salary).trans (getSSSMSC_lt_3250_iff salary)
  refine ⟨hiff, ?_, getSSSContri_of_le (by norm_num), ?_⟩
  · rintro ⟨n, hn⟩
    rw [hiff]
    constructor
    · intro h
      have : (0 : ℚ) < 1 / (4 * 10 ^ 13) := by positivity
      linarith
    · intro h
      have h1 : (n : ℚ) < ((3250 * 10 ^ 13 : ℤ) : ℚ) := by
        rw [← hn]
        have := mul_lt_mul_of_pos_right h (show (0 : ℚ) < 10 ^ 13 by positivity)
        push_cast
        linarith
      have h2 : n < 3250 * 10 ^ 13 := by exact_mod_cast h1
      have h3 : n ≤ 3250 * 10 ^ 13 - 1 := by omega
      have h4 : (n : ℚ) ≤ ((3250 * 10 ^ 13 - 1 : ℤ) : ℚ) := by exact_mod_cast h3
      rw [← hn] at h4
      push_cast at h4
      have h5 : salary ≤ (3250 * 10 ^ 13 - 1) / 10 ^ 13 := by
        rw [le_div_iff₀ (by positivity)]
        linarith
      have h6 : ((3250 * 10 ^ 13 - 1) / 10 ^ 13 : ℚ) < 3250 - 1 / (4 * 10 ^ 13) := by
        norm_num
      linarith
  · intro h
    have hm := getSSSMSC_mono (show 3250 - 1 / (4 * 10 ^ 13) ≤ salary by
      have : (0 : ℚ) < 1 / (4 * 10 ^ 13) := by positivity
      linarith)
    rw [getSSSMSC_threshold] at hm
    unfold getSSSContri
    simp only
    rw [if_neg (by linarith)]
    constructor
    · rfl
    · linarith

/-- The rule at salary 3250, which is not below 3250. -/
theorem getSSSContri_eq_135_iff_witness :
    (0 : ℚ) ≤ 3250 ∧ (∃ n : ℤ, (3250 : ℚ) * 10 ^ 13 = (n : ℚ)) ∧
    (getSSSContri 3250 = 135 ↔ (3250 : ℚ) < 3250) ∧
    1575 / 10 ≤ getSSSContri 3250 :=
  ⟨by norm_num, ⟨32500000000000000, by norm_num⟩,
    (getSSSContri_eq_135_iff 3250 (by norm_num)).2.1 ⟨32500000000000000, by norm_num⟩,
    ((getSSSContri_eq_135_iff 3250 (by norm_num)).2.2.2 (by norm_num)).2⟩

/-- C13: at salary 249.99999999999999 the formula of the source comment
(`(salary + 250) // 500 * 500` with integer division) gives the credit 0,
within 250 of the salary, whereas `getSSSMSC` returns 500, above
`salary + 250`: `Div` rounds the quotient 0.99999999999999998 to 1 before
`Floor`. -/
theorem getSSSMSC_gt_salary_add_250 :
    (0 : ℚ) ≤ 24999999999999999 / 100000000000000 ∧
    (24999999999999999 / 100000000000000 : ℚ) < 25250 ∧
    ((⌊((24999999999999999 / 100000000000000 : ℚ) + 250) / 500⌋ : ℤ) : ℚ) * 500 = 0 ∧
    getSSSMSC (24999999999999999 / 100000000000000) = 500 ∧
    ¬ (getSSSMSC (24999999999999999 / 100000000000000)
        ≤ 24999999999999999 / 100000000000000 + 250) := by
  have h : getSSSMSC (24999999999999999 / 100000000000000) = 500 := by
    norm_num [getSSSMSC, Decimal.Floor, Decimal.Div, Decimal.DivRound, Decimal.QuoRem,
      Decimal.trunc, Decimal.DivisionPrecision, Decimal.Sign, abs_of_pos]
  refine ⟨by norm_num, by norm_num, by norm_num, h, ?_⟩
  rw [h]
  norm_num

/-- Extent of the deviation of `getSSSMSC` from rounding to the nearest
multiple of 500: the result is an integer multiple of 500 and at most 25000;
for `0 ≤ salary < 25250` it satisfies
`salary - 250 < MSC ≤ salary + 250 + 0.000000000000025`, and
`MSC ≤ salary + 250` when the salary has at most 13 fractional digits; for
`salary ≥ 24750` it equals 25000. -/
theorem getSSSMSC_nearest_500 (salary : ℚ) :
    (∃ k : ℤ, getSSSMSC salary = (k : ℚ) * 500) ∧
    getSSSMSC salary ≤ 25000 ∧
    (0 ≤ salary → salary < 25250 →
      salary - 250 < getSSSMSC salary ∧
      getSSSMSC salary ≤ salary + 250 + 1 / (4 * 10 ^ 13)) ∧
    ((∃ n : ℤ, salary * 10 ^ 13 = (n : ℚ)) → 0 ≤ salary → salary < 25250 →
      getSSSMSC salary ≤ salary + 250) ∧
    (24750 ≤ salary → getSSSMSC salary = 25000) := by
  refine ⟨?_, getSSSMSC_le salary, ?_, ?_, fun h => getSSSMSC_eq_cap h⟩
  · unfold getSSSMSC Decimal.Floor
    simp only
    rcases le_total (25000 : ℚ) ((⌊Decimal.Div (salary + 250) 500⌋ : ℚ) * 500) with h | h
    · exact ⟨50, by rw [min_eq_left h]; norm_num⟩
    · exact ⟨⌊Decimal.Div (salary + 250) 500⌋, by rw [min_eq_right h]⟩
  · intro _ hlt
    have h1 := Floor_Div_500_ge (salary + 250)
    have h2 := le_Div_500 (salary + 250)
    have h3 := Floor_le (Decimal.Div (salary + 250) 500)
    have h4 := Div_500_le (salary + 250)
    have e1 : (1 : ℚ) / (2 * 10 ^ 16) = 1 / 20000000000000000 := by norm_num
    have e2 : (1 : ℚ) / 10 ^ 16 = 1 / 10000000000000000 := by norm_num
    have e3 : (1 : ℚ) / (4 * 10 ^ 13) = 1 / 40000000000000 := by norm_num
    rw [e1] at h2 h4
    rw [e2] at h1
    rw [e3]
    unfold getSSSMSC
    simp only
    constructor
    · rw [lt_min_iff]
      constructor <;> linarith
    · have := min_le_right (25000 : ℚ) (Decimal.Floor (Decimal.Div (salary + 250) 500) * 500)
      linarith
  · rintro ⟨n, hn⟩ _ _
    have hD : Decimal.Div (salary + 250) 500 = (salary + 250) / 500 := by
      apply Decimal.Div_eq_of_intCast _ (by norm_num) (2 * n + 5000000000000000)
      push_cast
      rw [← hn]
      ring
    have h3 := Floor_le (Decimal.Div (salary + 250) 500)
    rw [hD] at h3
    unfold getSSSMSC
    simp only
    rw [hD]
    have := min_le_right (25000 : ℚ) (Decimal.Floor ((salary + 250) / 500) * 500)
    linarith

/-- The credit at salaries 1234.56 and 30000. -/
theorem getSSSMSC_nearest_500_witness :
    (0 : ℚ) ≤ 123456 / 100 ∧ (123456 / 100 : ℚ) < 25250 ∧
    (∃ n : ℤ, (123456 / 100 : ℚ) * 10 ^ 13 = (n : ℚ)) ∧
    (123456 / 100 : ℚ) - 250 < getSSSMSC (123456 / 100) ∧
    getSSSMSC (123456 / 100) ≤ 123456 / 100 + 250 ∧
    ((24750 : ℚ) ≤ 30000 ∧ getSSSMSC 30000 = 25000) :=
  ⟨by norm_num, by norm_num, ⟨12345600000000000, by norm_num⟩,
    ((getSSSMSC_nearest_500 (123456 / 100)).2.2.1 (by norm_num) (by norm_num)).1,
    (getSSSMSC_nearest_500 (123456 / 100)).2.2.2.1 ⟨12345600000000000, by norm_num⟩
      (by norm_num) (by norm_num),
    by norm_num, (getSSSMSC_nearest_500 30000).2.2.2.2 (by norm_num)⟩

/-! ## The withholding tax -/

theorem unroundedIncomeTax_of_le {x : ℚ} (h : x ≤ 20833) : unroundedIncomeTax x = 0 := by
  simp only [unroundedIncomeTax, getWithholdingTax, scanTaxTable, monthlyTaxTable]
  rw [if_pos h]
  norm_num

theorem Round_zero : Decimal.Round 0 2 = 0 := by
  norm_num [Decimal.Round, Decimal.trunc]

theorem Round_two_idem (d : ℚ) : Decimal.Round (Decimal.Round d 2) 2 = Decimal.Round d 2 := by
  obtain ⟨n, hn⟩ := Round_two_centavo d
  exact Round_two_of_centavo n hn

/-- C14: for every gross salary whose taxable income is at most 20833.00,
negative taxable income included, `compute` yields `incomeTax = 0.00` and
`totalDeductions = totalContri`. -/
theorem compute_zero_tax_bracket (salary : ℚ)
    (h : (compute salary).taxableIncome ≤ 20833) :
    (compute salary).incomeTax = 0 ∧
    (compute salary).totalDeductions = (compute salary).totalContri := by
  have hz : (compute salary).incomeTax = 0 := by
    rw [compute_incomeTax, unroundedIncomeTax_of_le h, Round_zero]
  refine ⟨hz, ?_⟩
  rw [compute_totalDeductions, hz, add_zero, compute_totalContri, Round_two_idem]

/-- Witness of C14 at gross salary 0.00, whose taxable income is -335.00. -/
theorem compute_zero_tax_bracket_witness :
    (compute 0).taxableIncome ≤ 20833 ∧ (compute 0).incomeTax = 0 ∧
    (compute 0).totalDeductions = (compute 0).totalContri :=
  have h : (compute 0).taxableIncome ≤ 20833 := by rw [compute_zero_eq]; norm_num
  ⟨h, compute_zero_tax_bracket 0 h⟩

theorem unroundedIncomeTax_bounds (x : ℚ) :
    0 ≤ unroundedIncomeTax x ∧
    (unroundedIncomeTax x = 0 ∨ unroundedIncomeTax x + 5 / 1000 ≤ x) := by
  simp only [unroundedIncomeTax, getWithholdingTax, scanTaxTable, monthlyTaxTable]
  split_ifs
  · exact ⟨by norm_num, Or.inl (by norm_num)⟩
  all_goals exact ⟨by linarith, Or.inr (by linarith)⟩

/-- C16: for every taxable income `x ≥ 0` the income tax
`round2(fixedTax + (x - floor) * rate)` lies between 0 and `x`; for `x < 0`
it is exactly 0. -/
theorem incomeTax_bounds (x : ℚ) :
    (0 ≤ x → 0 ≤ Decimal.Round (unroundedIncomeTax x) 2 ∧
      Decimal.Round (unroundedIncomeTax x) 2 ≤ x) ∧
    (x < 0 → Decimal.Round (unroundedIncomeTax x) 2 = 0) := by
  constructor
  · intro hx
    obtain ⟨h0, h1⟩ := unroundedIncomeTax_bounds x
    constructor
    · have := Decimal.Round_mono h0 2
      rw [Round_zero] at this
      exact this
    · rcases h1 with h1 | h1
      · rw [h1, Round_zero]; exact hx
      · have := abs_Round_two_sub_le (unroundedIncomeTax x)
        rw [abs_le] at this
        linarith [this.2]
  · intro hx
    rw [unroundedIncomeTax_of_le (by linarith), Round_zero]

/-- Witness of C16 at taxable incomes 50000 and -335. -/
theorem incomeTax_bounds_witness :
    ((0 : ℚ) ≤ 50000 ∧ 0 ≤ Decimal.Round (unroundedIncomeTax 50000) 2 ∧
      Decimal.Round (unroundedIncomeTax 50000) 2 ≤ 50000) ∧
    ((-335 : ℚ) < 0 ∧ Decimal.Round (unroundedIncomeTax (-335)) 2 = 0) :=
  ⟨⟨by norm_num, (incomeTax_bounds 50000).1 (by norm_num)⟩,
    ⟨by norm_num, (incomeTax_bounds (-335)).2 (by norm_num)⟩⟩

/-- C17: for every gross salary with at most 2 fractional digits the final
`Round(2)` calls change nothing: `totalDeductions = totalContri + incomeTax`,
`netPayAfterTax = grossSalary - incomeTax`,
`netSalary = grossSalary - totalDeductions = netPayAfterTax - totalContri`,
and `netSalary + totalDeductions = grossSalary`. -/
theorem compute_accounting_identity (salary : ℚ)
    (h : ∃ n : ℤ, salary = (n : ℚ) / 100) :
    (compute salary).totalDeductions
      = (compute salary).totalContri + (compute salary).incomeTax ∧
    (compute salary).netPayAfterTax = salary - (compute salary).incomeTax ∧
    (compute salary).netSalary = salary - (compute salary).totalDeductions ∧
    (compute salary).netSalary
      = (compute salary).netPayAfterTax - (compute salary).totalContri ∧
    (compute salary).netSalary + (compute salary).totalDeductions = salary := by
  obtain ⟨n, hn⟩ := h
  obtain ⟨k, hk⟩ : ∃ k : ℤ, (compute salary).totalContri = (k : ℚ) / 100 :=
    Round_two_centavo _
  obtain ⟨m, hm⟩ : ∃ m : ℤ, (compute salary).incomeTax = (m : ℚ) / 100 :=
    Round_two_centavo _
  have hTD : (compute salary).totalDeductions
      = (compute salary).totalContri + (compute salary).incomeTax := by
    rw [compute_totalDeductions]
    apply Round_two_of_centavo (k + m)
    rw [hk, hm]; push_cast; ring
  have hNP : (compute salary).netPayAfterTax = salary - (compute salary).incomeTax := by
    rw [compute_netPayAfterTax]
    apply Round_two_of_centavo (n - m)
    rw [hm, hn]; push_cast; ring
  have hNS : (compute salary).netSalary = salary - (compute salary).totalDeductions := by
    rw [compute_netSalary]
    apply Round_two_of_centavo (n - (k + m))
    rw [hTD, hk, hm, hn]; push_cast; ring
  refine ⟨hTD, hNP, hNS, ?_, ?_⟩
  · rw [hNS, hNP, hTD]; ring
  · rw [hNS]; ring

/-- Witness of C17 at gross salary 25000.25. -/
theorem compute_accounting_identity_witness :
    (∃ n : ℤ, (2500025 / 100 : ℚ) = (n : ℚ) / 100) ∧
    (compute (2500025 / 100)).netSalary + (compute (2500025 / 100)).totalDeductions
      = 2500025 / 100 :=
  ⟨⟨2500025, by norm_num⟩,
    (compute_accounting_identity (2500025 / 100) ⟨2500025, by norm_num⟩).2.2.2.2⟩

/-- C18: for every gross salary `≥ 0` the total contributions are at most
2825.00, and for every gross salary `≥ 80000` they are exactly 2825.00
(1125.00 + 1600.00 + 100.00), so that the taxable income is the gross salary
minus 2825.00. -/
theorem totalContri_cap (salary : ℚ) (_h : 0 ≤ salary) :
    (compute salary).totalContri ≤ 2825 ∧
    (80000 ≤ salary →
      (compute salary).SSSContri = 1125 ∧ (compute salary).philHealthContri = 1600 ∧
      (compute salary).pagIBIGContri = 100 ∧
      (compute salary).totalContri = 2825 ∧
      (compute salary).taxableIncome = salary - 2825) := by
  constructor
  · rw [compute_totalContri, ← Round_2825]
    apply Decimal.Round_mono
    linarith [getSSSContri_bound salary, getPhilHealthContri_bound salary,
      getPagIBIGContri_bound salary]
  · intro h
    have h1 : getSSSContri salary = 1125 := getSSSContri_of_ge (by linarith)
    have h2 : getPhilHealthContri salary = 1600 := by
      unfold getPhilHealthContri
      simp only
      rw [if_neg (by linarith), if_pos h, Div_3200_2]
    have h3 : getPagIBIGContri salary = 100 := getPagIBIGContri_of_ge (by linarith)
    have h4 : (compute salary).totalContri = 2825 := by
      rw [compute_totalContri, h1, h2, h3]
      norm_num [Decimal.Round, Decimal.trunc]
    refine ⟨h1, h2, h3, h4, ?_⟩
    rw [compute_taxableIncome, ← compute_totalContri, h4]

/-- Witness of C18 at gross salary 100000. -/
theorem totalContri_cap_witness :
    (0 : ℚ) ≤ 100000 ∧ (80000 : ℚ) ≤ 100000 ∧
    (compute 100000).totalContri ≤ 2825 ∧
    (compute 100000).totalContri = 2825 ∧
    (compute 100000).taxableIncome = 100000 - 2825 :=
  ⟨by norm_num, by norm_num, (totalContri_cap 100000 (by norm_num)).1,
    ((totalContri_cap 100000 (by norm_num)).2 (by norm_num)).2.2.2.1,
    ((totalContri_cap 100000 (by norm_num)).2 (by norm_num)).2.2.2.2⟩
